import Mathlib

/-!
# Verification of the ESP-NOW protocol / pairing / peer-store core

Shallow embedding of the protocol and security core of the
esp32-simple-remote-controller repository:

* `espnow_protocol.hpp` — packet header layout, `crc16_ccitt`;
* `espnow_security.hpp` — pairing payload layouts, HMAC verification,
  MAC helpers;
* `espnow_peer_store.cpp` — approved-peer table (`AddPeer`, `RemovePeer`,
  `IsPeerApproved`, `Init`/load, `ClearAll`);
* `espnow_protocol.cpp` — packet encoding (`sendPacketTo`), the receive
  dispatcher (`handlePacket`) with its security gate, and the pairing
  state machine (`StartPairing`, `handlePairingResponse`,
  `handlePairingReject`).

Bytes are modelled as `Nat` (with explicit `% 256` / `% 65536` where the
C code truncates to `uint8_t` / `uint16_t`); MAC addresses and payloads
are byte lists.  External collaborators (mbedtls HMAC-SHA-256, the
esp_crc32 checksum, the radio send primitive, the RNG) are parameters of
the functions that call them; everything written in the repository itself
is translated directly.
-/

set_option linter.unusedSectionVars false
set_option linter.unusedVariables false
set_option maxRecDepth 100000

deriving instance DecidableEq for Except

namespace espnow

/-! ## Protocol constants (espnow_protocol.hpp) -/

def SYNC_BYTE : Nat := 0xAA
def PROTOCOL_VERSION : Nat := 1
def MAX_PAYLOAD_SIZE : Nat := 200
def CRC16_POLYNOMIAL : Nat := 0x1021

/-! ## CRC-16 (espnow_protocol.hpp, `crc16_ccitt`)

The C function keeps a `uint16_t` register, xors each byte in at the
top, and runs 8 MSB-first shift steps.  `% 65536` models the 16-bit
truncation of the register. -/

/-- One inner-loop iteration of `crc16_ccitt`:
`crc = (crc & 0x8000) ? (crc << 1) ^ poly : crc << 1` on `uint16_t`. -/
def crc16_step (poly crc : Nat) : Nat :=
  if crc &&& 0x8000 ≠ 0 then ((crc <<< 1) ^^^ poly) % 65536
  else (crc <<< 1) % 65536

/-- The 8-fold repetition of the inner loop. -/
def crc16_bits (poly : Nat) : Nat → Nat → Nat
  | 0, crc => crc
  | n + 1, crc => crc16_bits poly n (crc16_step poly crc)

/-- Per-byte update: `crc ^= (uint16_t)data[i] << 8;` then 8 bit steps.
`b % 256` reflects that the input is a `uint8_t`. -/
def crc16_update (poly crc b : Nat) : Nat :=
  crc16_bits poly 8 ((crc ^^^ ((b % 256) <<< 8)) % 65536)

/-- Generic MSB-first CRC-16: polynomial, initial value and final xor as
explicit parameters.  Used to state which CRC family `crc16_ccitt`
implements. -/
def crc16_msb_generic (poly init xorout : Nat) (data : List Nat) : Nat :=
  (data.foldl (crc16_update poly) init) ^^^ xorout

/-- `crc16_ccitt` from espnow_protocol.hpp: init `0xFFFF`, polynomial
`0x1021`, MSB-first, no final xor. -/
def crc16_ccitt (data : List Nat) : Nat :=
  data.foldl (crc16_update CRC16_POLYNOMIAL) 0xFFFF

theorem crc16_step_lt (poly crc : Nat) :
    crc16_step poly crc < 65536 := by
  unfold crc16_step
  split
  · exact Nat.mod_lt _ (by norm_num)
  · exact Nat.mod_lt _ (by norm_num)

theorem crc16_bits_lt (poly : Nat) :
    ∀ n crc, crc < 65536 → crc16_bits poly n crc < 65536 := by
  intro n
  induction n with
  | zero => intro crc h; simpa [crc16_bits] using h
  | succ k ih =>
      intro crc _
      exact ih _ (crc16_step_lt poly crc)

theorem crc16_update_lt (poly crc b : Nat) :
    crc16_update poly crc b < 65536 :=
  crc16_bits_lt poly 8 _ (Nat.mod_lt _ (by norm_num))

/-- The CRC register value always fits in 16 bits. -/
theorem crc16_ccitt_lt (data : List Nat) : crc16_ccitt data < 65536 := by
  unfold crc16_ccitt
  induction data using List.reverseRecOn with
  | nil => norm_num
  | append_singleton xs x _ =>
      rw [List.foldl_append]
      exact crc16_update_lt _ _ _

end espnow

/-! ## MAC helpers (espnow_security.hpp) -/

/-- A MAC address: 6 bytes. -/
abbrev Mac := List Nat

def BROADCAST_MAC : Mac := [0xFF, 0xFF, 0xFF, 0xFF, 0xFF, 0xFF]

def ZERO_MAC : Mac := [0, 0, 0, 0, 0, 0]

/-- `IsZeroMac`: all six bytes are zero. -/
def IsZeroMac (mac : Mac) : Bool := mac.all (fun b => b == 0)

/-- `IsBroadcastMac`: memcmp against `BROADCAST_MAC`. -/
def IsBroadcastMac (mac : Mac) : Bool := mac == BROADCAST_MAC

/-- `MacEquals`: memcmp of the six bytes. -/
def MacEquals (a b : Mac) : Bool := a == b

/-! ## Security constants (espnow_security.hpp) -/

def CHALLENGE_SIZE : Nat := 8
def HMAC_SIZE : Nat := 16
def MAX_APPROVED_PEERS : Nat := 4
def MAX_DEVICE_NAME_LEN : Nat := 16
def PAIRING_RESPONSE_TIMEOUT_MS : Nat := 10000

/-- `DeviceType` raw values. -/
def DT_Unknown : Nat := 0
def DT_RemoteController : Nat := 1
def DT_FatigueTester : Nat := 2

/-! ## HMAC (espnow_security.hpp)

`ComputePairingHmac` calls mbedtls HMAC-SHA-256 with the compile-time
`PAIRING_SECRET` and truncates to 16 bytes.  The mbedtls primitive is an
external collaborator: it enters the model as a function parameter
`hmacFull : List Nat → List Nat` mapping a challenge to the full 32-byte
HMAC under the built-in secret.  What the repository itself contributes
— the truncation and the constant-time comparison — is translated
directly. -/

/-- `ComputePairingHmac`: full HMAC truncated to the first 16 bytes. -/
def ComputePairingHmac (hmacFull : List Nat → List Nat) (challenge : List Nat) :
    List Nat :=
  (hmacFull challenge).take HMAC_SIZE

/-- `VerifyPairingHmac`: recompute, then constant-time compare by
or-accumulating the xor of each byte pair. -/
def VerifyPairingHmac (hmacFull : List Nat → List Nat)
    (challenge received : List Nat) : Bool :=
  let expected := ComputePairingHmac hmacFull challenge
  let diff := (List.range HMAC_SIZE).foldl
    (fun d i => d ||| (expected.getD i 0 ^^^ received.getD i 0)) 0
  diff == 0

/-! ## Approved-peer store (espnow_security.hpp, espnow_peer_store.cpp) -/

/-- `ApprovedPeer`: one slot of the approved-peer table. -/
structure ApprovedPeer where
  mac : Mac
  device_type : Nat
  name : List Nat
  paired_timestamp : Nat
  valid : Bool
deriving Repr, DecidableEq

/-- A peer slot after `memset(&peer, 0, sizeof(peer))`. -/
def clearedPeer : ApprovedPeer :=
  { mac := ZERO_MAC
    device_type := 0
    name := List.replicate MAX_DEVICE_NAME_LEN 0
    paired_timestamp := 0
    valid := false }

/-- `SecuritySettings`: the fixed array of `MAX_APPROVED_PEERS` slots. -/
structure SecuritySettings where
  approved_peers : List ApprovedPeer
deriving Repr, DecidableEq

/-- The table right after `memset(&sec, 0, sizeof(sec))` + `valid = false`. -/
def emptySettings : SecuritySettings :=
  { approved_peers := List.replicate MAX_APPROVED_PEERS clearedPeer }

/-- Module-level globals of espnow_peer_store.cpp:
`s_preconfigured_peer` / `s_has_preconfigured`. -/
structure PeerStoreCtx where
  has_preconfigured : Bool
  preconfigured_peer : ApprovedPeer
deriving Repr, DecidableEq

namespace PeerStore

/-- `strncpy(dst, src, 15)` into a zeroed 16-byte buffer followed by
`dst[15] = 0`: at most 15 bytes up to the first NUL, zero-padded. -/
def storeName (src : List Nat) : List Nat :=
  let chars := (src.takeWhile (fun b => b ≠ 0)).take (MAX_DEVICE_NAME_LEN - 1)
  chars ++ List.replicate (MAX_DEVICE_NAME_LEN - chars.length) 0

/-- Replace the first element satisfying `p` by `f` of it; `none` when no
element matches.  Models the early-returning `for` loops of
espnow_peer_store.cpp. -/
def updateFirst (p : α → Bool) (f : α → α) : List α → Option (List α)
  | [] => none
  | x :: xs =>
      if p x then some (f x :: xs)
      else (updateFirst p f xs).map (fun ys => x :: ys)

/-- The in-place update `AddPeer` applies to an existing slot with the
same MAC: new type, new name when one was passed (`strncpy` + forced
terminator), MAC and validity untouched. -/
def updatedEntry (ty : Nat) (name : Option (List Nat)) (q : ApprovedPeer) :
    ApprovedPeer :=
  { q with
    device_type := ty
    name := match name with
      | some n => storeName n
      | none => q.name }

/-- The record `AddPeer` writes into the first free slot; a `nullptr`
name defaults to "Unknown". -/
def newEntry (mac : Mac) (ty : Nat) (name : Option (List Nat)) : ApprovedPeer :=
  { mac := mac
    device_type := ty
    name := storeName (name.getD [0x55, 0x6E, 0x6B, 0x6E, 0x6F, 0x77, 0x6E])
    paired_timestamp := 0
    valid := true }

/-- `PeerStore::AddPeer`: reject the zero MAC; update an existing valid
slot with the same MAC, else fill the first free slot; fail when full.
(`name` is `Option` because the C parameter may be `nullptr`.) -/
def AddPeer (sec : SecuritySettings) (mac : Mac) (ty : Nat)
    (name : Option (List Nat)) : SecuritySettings × Bool :=
  if IsZeroMac mac then (sec, false)
  else
    match updateFirst (fun q => q.valid && MacEquals q.mac mac)
        (updatedEntry ty name) sec.approved_peers with
    | some tbl => ({ approved_peers := tbl }, true)
    | none =>
        match updateFirst (fun q => !q.valid)
            (fun _ => newEntry mac ty name) sec.approved_peers with
        | some tbl => ({ approved_peers := tbl }, true)
        | none => (sec, false)

@[simp] theorem updatedEntry_valid (ty : Nat) (name : Option (List Nat))
    (q : ApprovedPeer) : (updatedEntry ty name q).valid = q.valid := rfl

@[simp] theorem updatedEntry_mac (ty : Nat) (name : Option (List Nat))
    (q : ApprovedPeer) : (updatedEntry ty name q).mac = q.mac := rfl

@[simp] theorem newEntry_valid (mac : Mac) (ty : Nat)
    (name : Option (List Nat)) : (newEntry mac ty name).valid = true := rfl

@[simp] theorem newEntry_mac (mac : Mac) (ty : Nat)
    (name : Option (List Nat)) : (newEntry mac ty name).mac = mac := rfl

/-- `PeerStore::RemovePeer`: zero out the first valid slot whose MAC
matches; `false` (no-op) when absent. -/
def RemovePeer (sec : SecuritySettings) (mac : Mac) : SecuritySettings × Bool :=
  match updateFirst (fun q => q.valid && MacEquals q.mac mac)
      (fun _ => clearedPeer) sec.approved_peers with
  | some tbl => ({ approved_peers := tbl }, true)
  | none => (sec, false)

/-- `PeerStore::IsPeerApproved`: zero MAC is never approved; the
pre-configured peer is always approved; otherwise search the table. -/
def IsPeerApproved (ctx : PeerStoreCtx) (sec : SecuritySettings) (mac : Mac) :
    Bool :=
  if IsZeroMac mac then false
  else if ctx.has_preconfigured && MacEquals ctx.preconfigured_peer.mac mac then
    true
  else sec.approved_peers.any (fun q => q.valid && MacEquals q.mac mac)

/-- `PeerStore::ClearAll`: zero every slot. -/
def ClearAll (sec : SecuritySettings) : SecuritySettings :=
  { approved_peers := sec.approved_peers.map (fun _ => clearedPeer) }

/-! ### Persistence (`PeerStore::Init` load path)

NVS and the `esp_crc32_le` checksum are external collaborators.  The NVS
contents are modelled as the stored blob (its reported size plus the
`SecuritySettings` value its bytes decode to) and the stored checksum
word; the checksum function over the blob is a parameter. -/

/-- `sizeof(SecuritySettings)` on the target: `ApprovedPeer` is not in a
packed region, so `6 + 1 + 16 = 23` bytes of data, padding to 24, a
4-byte timestamp, the `bool`, and tail padding give 32 bytes per slot,
128 for the four-slot table. -/
def SIZEOF_SECURITY_SETTINGS : Nat := 128

/-- The persisted key pair: blob (reported size and decoded content) and
checksum, each possibly absent. -/
structure NvsPeerData where
  blob : Option (Nat × SecuritySettings)
  crc : Option Nat
deriving Repr

/-- The load path of `PeerStore::Init` (espnow_peer_store.cpp lines
55-87): the table stays empty unless the blob exists with exactly the
expected size and the stored checksum matches the recomputed one. -/
def loadSettings (crc32 : SecuritySettings → Nat) (nvs : NvsPeerData) :
    SecuritySettings :=
  match nvs.blob with
  | some (blob_size, loaded) =>
      if blob_size = SIZEOF_SECURITY_SETTINGS then
        match nvs.crc with
        | some stored_crc =>
            if crc32 loaded = stored_crc then loaded else emptySettings
        | none => emptySettings
      else emptySettings
  | none => emptySettings

/-- The pre-configuration path of `PeerStore::Init` (lines 36-53): the
globals are set only for a present, non-zero MAC. -/
def initCtx (preconfigured_mac : Option Mac) (preconfigured_type : Nat)
    (preconfigured_name : Option (List Nat)) : PeerStoreCtx :=
  match preconfigured_mac with
  | some mac =>
      if IsZeroMac mac then { has_preconfigured := false, preconfigured_peer := clearedPeer }
      else
        { has_preconfigured := true
          preconfigured_peer :=
            { mac := mac
              device_type := preconfigured_type
              name := storeName (preconfigured_name.getD
                [0x50, 0x72, 0x65, 0x2D, 0x63, 0x6F, 0x6E, 0x66, 0x69, 0x67, 0x75, 0x72, 0x65, 0x64])
              paired_timestamp := 0
              valid := true } }
  | none => { has_preconfigured := false, preconfigured_peer := clearedPeer }

/-- `PeerStore::Init`: set up the pre-configured peer and load the table. -/
def Init (crc32 : SecuritySettings → Nat) (nvs : NvsPeerData)
    (preconfigured_mac : Option Mac) (preconfigured_type : Nat)
    (preconfigured_name : Option (List Nat)) :
    PeerStoreCtx × SecuritySettings :=
  (initCtx preconfigured_mac preconfigured_type preconfigured_name,
   loadSettings crc32 nvs)

/-- Peer-table states reachable by the store's own mutators starting
from the empty table.  A table loaded from an uncorrupted NVS blob is
one that `Save` previously wrote, i.e. itself of this shape, so this
also covers post-`Init` states. -/
inductive Reachable : SecuritySettings → Prop
  | init : Reachable emptySettings
  | add (mac ty name) {s} : Reachable s → Reachable (AddPeer s mac ty name).1
  | remove (mac) {s} : Reachable s → Reachable (RemovePeer s mac).1
  | clear {s} : Reachable s → Reachable (ClearAll s)

end PeerStore

/-! ## Packet codec (espnow_protocol.cpp)

`sendPacketTo` builds the wire bytes; the validation prefix of
`handlePacket` parses them.  Multi-byte CRC trailer bytes follow the
little-endian layout the target's `memcpy` of a `uint16_t` produces. -/

namespace espnow

/-- The typed result of the validation prefix of `handlePacket`. -/
structure DecodedPacket where
  device_id : Nat
  msg_type : Nat
  seq_id : Nat
  len : Nat
  payload : List Nat
deriving Repr, DecidableEq

/-- The early-return points of `handlePacket` before dispatch. -/
inductive DropReason where
  | tooShort
  | badSync
  | badVersion
  | badLength
  | truncated
  | crcMismatch
deriving Repr, DecidableEq

/-- The validation prefix of `handlePacket` (espnow_protocol.cpp lines
547-593): length, sync, version, payload-length and CRC checks, then the
typed fields.  Each error constructor corresponds to one early
`return`. -/
def decodePacket (raw : List Nat) : Except DropReason DecodedPacket :=
  if raw.length < 8 then .error .tooShort
  else
    -- memcpy(&hdr, data, sizeof(hdr)): the six header bytes
    let sync := raw.getD 0 0
    let version := raw.getD 1 0
    let device_id := raw.getD 2 0
    let ty := raw.getD 3 0
    let seq_id := raw.getD 4 0
    let plen := raw.getD 5 0
    if sync ≠ SYNC_BYTE then .error .badSync
    else if version ≠ PROTOCOL_VERSION then .error .badVersion
    else if plen > MAX_PAYLOAD_SIZE then .error .badLength
    else if raw.length < 6 + plen + 2 then .error .truncated
    else
      -- crc16_ccitt(data, sizeof(hdr) + hdr.len) vs the trailer bytes
      let calc_crc := crc16_ccitt (raw.take (6 + plen))
      let recv_crc := raw.getD (6 + plen) 0 + 256 * raw.getD (6 + plen + 1) 0
      if calc_crc ≠ recv_crc then .error .crcMismatch
      else .ok
        { device_id := device_id
          msg_type := ty
          seq_id := seq_id
          len := plen
          payload := (raw.drop 6).take plen }

/-- The buffer `sendPacketTo` (espnow_protocol.cpp lines 203-239) hands
to the radio: 6-byte header, payload, CRC-16 little-endian; `none` when
the payload exceeds `MAX_PAYLOAD_SIZE` (the `PayloadTooLarge` early
return). `seq_id` is the value of `s_next_msg_id_` consumed by this
send. -/
def encodePacket (device_id msg_type seq_id : Nat) (payload : List Nat) :
    Option (List Nat) :=
  if payload.length > MAX_PAYLOAD_SIZE then none
  else
    let hdr := [SYNC_BYTE, PROTOCOL_VERSION, device_id, msg_type, seq_id,
                payload.length]
    let crc := crc16_ccitt (hdr ++ payload)
    some (hdr ++ payload ++ [crc % 256, crc / 256])

/-- The length filter of the receive ISR callback `espnowRecvCb`
(espnow_protocol.cpp lines 530-545): datagrams shorter than 8 bytes or
longer than `sizeof(EspNowPacket)` = 208 never reach the receive task. -/
def recvCbAccepts (raw : List Nat) : Bool :=
  8 ≤ raw.length && raw.length ≤ 208

/-! ## Pairing state machine (espnow_protocol.cpp) -/

/-- `espnow::PairingState`. -/
inductive PairingState where
  | Idle
  | WaitingForResponse
  | Complete
  | Failed
deriving Repr, DecidableEq

/-- `espnow::ProtoEvent` as filled in by the dispatcher. -/
structure ProtoEvent where
  msg_type : Nat
  device_id : Nat
  sequence_id : Nat
  payload : List Nat
  payload_len : Nat
  src_mac : Mac
deriving Repr, DecidableEq

/-- The module-level globals of espnow_protocol.cpp that the receive
path and the pairing machine read and write. -/
structure ProtoState where
  pairing_state : PairingState
  my_challenge : List Nat
  pending_responder_mac : Mac
  pairing_timeout_tick : Nat
  next_msg_id : Nat
  security : SecuritySettings
  peerctx : PeerStoreCtx
deriving Repr, DecidableEq

/-- `PairingResponsePayload` (espnow_security.hpp lines 179-185), packed:
mac(6) + device_type(1) + challenge(8) + hmac(16) + name(16) = 47. -/
def SIZEOF_PAIRING_RESPONSE : Nat := 47

/-- `PairingRejectPayload`: mac(6) + reason(1) = 7. -/
def SIZEOF_PAIRING_REJECT : Nat := 7

/-- `PairingRequestPayload`: mac(6) + type(1) + expected(1) +
challenge(8) + version(1) = 17. -/
def SIZEOF_PAIRING_REQUEST : Nat := 17

/-- `PairingConfirmPayload`: mac(6) + hmac(16) + success(1) = 23. -/
def SIZEOF_PAIRING_CONFIRM : Nat := 23

/-- The fields `memcpy(&resp, pkt.payload, sizeof(resp))` reads out of
the packed 47-byte `PairingResponsePayload`. -/
structure PairingResponseFields where
  responder_mac : Mac
  device_type : Nat
  challenge : List Nat
  hmac_response : List Nat
  device_name : List Nat
deriving Repr, DecidableEq

/-- Field extraction at the packed offsets 0, 6, 7, 15, 31. -/
def parsePairingResponse (payload : List Nat) : PairingResponseFields :=
  { responder_mac := payload.take 6
    device_type := payload.getD 6 0
    challenge := (payload.drop 7).take CHALLENGE_SIZE
    hmac_response := (payload.drop 15).take HMAC_SIZE
    device_name := (payload.drop 31).take MAX_DEVICE_NAME_LEN }

/-- `handlePairingResponse` (espnow_protocol.cpp lines 393-478).

External effects appear as parameters: `hmacFull` is the mbedtls HMAC
under the built-in secret, `myMac` the result of `esp_wifi_get_mac`,
`sendOk` whether `esp_now_send` of the `PairingConfirm` succeeds.
Returns the updated globals and the list of events pushed to the
application queue. -/
def handlePairingResponse (hmacFull : List Nat → List Nat) (myMac : Mac)
    (sendOk : Bool) (st : ProtoState) (src_mac : Mac) (pkt : DecodedPacket) :
    ProtoState × List ProtoEvent :=
  if st.pairing_state ≠ .WaitingForResponse then (st, [])
  else if pkt.len < SIZEOF_PAIRING_RESPONSE then
    ({ st with pairing_state := .Failed }, [])
  else
    let resp := parsePairingResponse pkt.payload
    -- SECURITY CHECK 1: wrong device type is ignored, session stays open
    if resp.device_type ≠ DT_FatigueTester then (st, [])
    -- SECURITY CHECK 2: HMAC over our challenge
    else if ¬ VerifyPairingHmac hmacFull st.my_challenge resp.hmac_response then
      ({ st with pairing_state := .Failed }, [])
    else
      -- tryAddEspNowPeer + record the responder
      let st1 := { st with pending_responder_mac := resp.responder_mac }
      -- build PairingConfirm and send it; sendPacketTo consumes a msg id
      let st2 := { st1 with next_msg_id := (st1.next_msg_id + 1) % 256 }
      if ¬ sendOk then ({ st2 with pairing_state := .Failed }, [])
      else
        let (sec2, added) := PeerStore.AddPeer st2.security resp.responder_mac
          DT_FatigueTester (some resp.device_name)
        if added then
          ({ st2 with security := sec2, pairing_state := .Complete },
           [{ msg_type := 21  -- MsgType::PairingResponse reused as the event tag
              device_id := resp.device_type
              sequence_id := 0
              payload := resp.device_name
              payload_len := MAX_DEVICE_NAME_LEN
              src_mac := resp.responder_mac }])
        else ({ st2 with security := sec2, pairing_state := .Failed }, [])

/-- `handlePairingReject` (espnow_protocol.cpp lines 480-517): logging
only; no state change and no event on any path. -/
def handlePairingReject (st : ProtoState) (src_mac : Mac)
    (pkt : DecodedPacket) : ProtoState × List ProtoEvent :=
  if st.pairing_state ≠ .WaitingForResponse then (st, [])
  else if pkt.len < SIZEOF_PAIRING_REJECT then (st, [])
  else (st, [])

/-- The message-type numbers the dispatcher treats specially. -/
def MT_PairingRequest : Nat := 20
def MT_PairingResponse : Nat := 21
def MT_PairingConfirm : Nat := 22
def MT_PairingReject : Nat := 23

/-- How `handlePacket` disposed of a datagram; one constructor per
return path after validation. -/
inductive Disposition where
  | dropped (r : DropReason)
  | pairingResponse
  | pairingReject
  | unapproved
  | delivered
deriving Repr, DecidableEq

/-- `handlePacket` (espnow_protocol.cpp lines 547-633): validate, route
`PairingResponse` / `PairingReject` to the pairing handlers, apply the
security gate to everything else, and surface approved traffic as a
`ProtoEvent`. -/
def handlePacket (hmacFull : List Nat → List Nat) (myMac : Mac)
    (sendOk : Bool) (st : ProtoState) (raw : List Nat) (src_mac : Mac) :
    ProtoState × List ProtoEvent × Disposition :=
  match decodePacket raw with
  | .error r => (st, [], .dropped r)
  | .ok pkt =>
      if pkt.msg_type = MT_PairingResponse then
        let res := handlePairingResponse hmacFull myMac sendOk st src_mac pkt
        (res.1, res.2, .pairingResponse)
      else if pkt.msg_type = MT_PairingReject then
        let res := handlePairingReject st src_mac pkt
        (res.1, res.2, .pairingReject)
      else if ¬ PeerStore.IsPeerApproved st.peerctx st.security src_mac then
        (st, [], .unapproved)
      else
        (st,
         [{ msg_type := pkt.msg_type
            device_id := pkt.device_id
            sequence_id := pkt.seq_id
            payload := pkt.payload
            payload_len := pkt.len
            src_mac := src_mac }],
         .delivered)

/-- `pdMS_TO_TICKS` at the default 100 Hz FreeRTOS tick rate (external
configuration constant). -/
def pdMsToTicks (ms : Nat) : Nat := ms * 100 / 1000

/-- `espnow::StartPairing` (espnow_protocol.cpp lines 300-333).
`newChallenge` stands for the RNG output of `GenerateChallenge`,
`sendOk` for the broadcast send result, `now` for
`xTaskGetTickCount()`. -/
def StartPairing (newChallenge : List Nat) (myMac : Mac) (sendOk : Bool)
    (now : Nat) (st : ProtoState) : ProtoState × Bool :=
  if st.pairing_state ≠ .Idle then (st, false)
  else
    -- GenerateChallenge writes the global before the send
    let st1 := { st with my_challenge := newChallenge }
    -- broadcast PairingRequest; sendPacketTo consumes a msg id
    let st2 := { st1 with next_msg_id := (st1.next_msg_id + 1) % 256 }
    if ¬ sendOk then (st2, false)
    else
      ({ st2 with
          pairing_state := .WaitingForResponse
          pairing_timeout_tick := now + pdMsToTicks PAIRING_RESPONSE_TIMEOUT_MS },
       true)

/-- `espnow::CancelPairing` (espnow_protocol.cpp lines 335-341). -/
def CancelPairing (st : ProtoState) : ProtoState :=
  if st.pairing_state ≠ .Idle then { st with pairing_state := .Idle } else st

/-- `espnow::GetPairingState` (espnow_protocol.cpp lines 343-353):
polled timeout check. -/
def GetPairingState (now : Nat) (st : ProtoState) : ProtoState × PairingState :=
  if st.pairing_state = .WaitingForResponse ∧ now > st.pairing_timeout_tick then
    ({ st with pairing_state := .Failed }, .Failed)
  else (st, st.pairing_state)

end espnow

/-! ## Concrete states used by the evaluation witnesses -/

open espnow

/-- A freshly initialized protocol-module state: no pre-configured peer,
empty table, idle pairing machine. -/
def freshState : ProtoState :=
  { pairing_state := .Idle
    my_challenge := List.replicate CHALLENGE_SIZE 0
    pending_responder_mac := ZERO_MAC
    pairing_timeout_tick := 0
    next_msg_id := 1
    security := emptySettings
    peerctx := { has_preconfigured := false, preconfigured_peer := clearedPeer } }

/-- `freshState` mid-pairing. -/
def waitingState : ProtoState :=
  { freshState with pairing_state := .WaitingForResponse }

/-- A trivial stand-in for the external HMAC primitive, used only to
instantiate witnesses. -/
def zeroHmac : List Nat → List Nat := fun _ => List.replicate 32 0

/-- The pre-configured factory MAC `TEST_UNIT_MAC_` from config.hpp. -/
def TEST_UNIT_MAC : Mac := [0x24, 0x6F, 0x28, 0x00, 0x00, 0x01]

/-! ## C7 — the CRC is CRC-16/CCITT-FALSE -/

/-- C7: `crc16_ccitt` implements CRC-16/CCITT-FALSE — it coincides with
the generic MSB-first CRC-16 at polynomial 0x1021, initial value 0xFFFF
and zero final xor on every input — and maps the ASCII bytes of
"123456789" to 0x29B1. -/
theorem crc16_implements_ccitt_false :
    (∀ data : List Nat,
      crc16_ccitt data = crc16_msb_generic 0x1021 0xFFFF 0x0000 data) ∧
    crc16_ccitt [0x31, 0x32, 0x33, 0x34, 0x35, 0x36, 0x37, 0x38, 0x39] = 0x29B1 := by
  refine ⟨fun data => ?_, by decide⟩
  simp [crc16_ccitt, crc16_msb_generic, CRC16_POLYNOMIAL]

/-! ## C8 — StartPairing is rejected while a session is in flight -/

/-- C8: calling `StartPairing` while the pairing state is
`WaitingForResponse` returns failure and leaves the whole module state —
in particular the stored challenge, the pending-responder MAC and the
timeout deadline — untouched. -/
theorem startPairing_busy_rejected (newChallenge : List Nat) (myMac : Mac)
    (sendOk : Bool) (now : Nat) (st : ProtoState)
    (hBusy : st.pairing_state = .WaitingForResponse) :
    StartPairing newChallenge myMac sendOk now st = (st, false) := by
  unfold StartPairing
  rw [hBusy]
  simp

/-- Witness for C8 at a concrete in-flight state. -/
theorem startPairing_busy_rejected_witness :
    waitingState.pairing_state = .WaitingForResponse ∧
    StartPairing [9, 9, 9, 9, 9, 9, 9, 9] TEST_UNIT_MAC true 77 waitingState =
      (waitingState, false) :=
  ⟨by decide,
   startPairing_busy_rejected [9, 9, 9, 9, 9, 9, 9, 9] TEST_UNIT_MAC true 77
     waitingState (by decide)⟩

/-! ## C9 — corrupt persistence loads as an empty table -/

/-- C9: when the persisted blob is missing, has the wrong size, or its
stored checksum does not match the recomputed one (including a missing
checksum entry), the `Init` load path produces the empty table — every
slot invalid — and never an entry of the corrupt blob. -/
theorem load_corrupt_gives_empty (crc32 : SecuritySettings → Nat)
    (nvs : PeerStore.NvsPeerData)
    (hBad : nvs.blob = none ∨
      (∃ sz loaded, nvs.blob = some (sz, loaded) ∧
        sz ≠ PeerStore.SIZEOF_SECURITY_SETTINGS) ∨
      (∃ sz loaded, nvs.blob = some (sz, loaded) ∧
        (nvs.crc = none ∨ ∃ c, nvs.crc = some c ∧ crc32 loaded ≠ c))) :
    PeerStore.loadSettings crc32 nvs = emptySettings ∧
    ∀ q ∈ (PeerStore.loadSettings crc32 nvs).approved_peers, q.valid = false := by
  have hempty : PeerStore.loadSettings crc32 nvs = emptySettings := by
    unfold PeerStore.loadSettings
    rcases hBad with hnone | ⟨sz, loaded, hblob, hsz⟩ | ⟨sz, loaded, hblob, hcrc⟩
    · rw [hnone]
    · rw [hblob]; simp [hsz]
    · rw [hblob]
      rcases hcrc with hcnone | ⟨c, hc, hne⟩
      · simp [hcnone]
      · simp only [hc]
        split
        · simp [hne]
        · rfl
  refine ⟨hempty, ?_⟩
  rw [hempty]
  decide

/-- Witness for C9: a full-size blob with one valid entry but a wrong
stored checksum loads as the empty table. -/
theorem load_corrupt_gives_empty_witness :
    (let badPeer : ApprovedPeer :=
      { mac := TEST_UNIT_MAC, device_type := DT_FatigueTester,
        name := List.replicate 16 0, paired_timestamp := 0, valid := true }
     let blobContent : SecuritySettings :=
      { approved_peers := [badPeer, clearedPeer, clearedPeer, clearedPeer] }
     let nvs : PeerStore.NvsPeerData :=
      { blob := some (PeerStore.SIZEOF_SECURITY_SETTINGS, blobContent)
        crc := some 1 }
     PeerStore.loadSettings (fun _ => 0) nvs = emptySettings ∧
     ∀ q ∈ (PeerStore.loadSettings (fun _ => 0) nvs).approved_peers,
       q.valid = false) :=
  load_corrupt_gives_empty (fun _ => 0) _
    (Or.inr (Or.inr ⟨PeerStore.SIZEOF_SECURITY_SETTINGS, _, rfl,
      Or.inr ⟨1, rfl, by decide⟩⟩))

/-! ## C10 — a too-short PairingResponse fails the session -/

/-- C10: while waiting for a response, a decoded `PairingResponse` whose
declared payload length is below the 47-byte `PairingResponsePayload`
moves the pairing state to `Failed` (rather than being ignored like a
wrong-device-type response), and once `Failed` the handler accepts no
further responses. -/
theorem short_pairing_response_fails_session (hmacFull : List Nat → List Nat)
    (myMac : Mac) (sendOk : Bool) (st : ProtoState) (src_mac : Mac)
    (pkt : DecodedPacket)
    (hWait : st.pairing_state = .WaitingForResponse)
    (hLen : pkt.len < SIZEOF_PAIRING_RESPONSE) :
    handlePairingResponse hmacFull myMac sendOk st src_mac pkt =
      ({ st with pairing_state := .Failed }, []) ∧
    ∀ (src2 : Mac) (pkt2 : DecodedPacket),
      handlePairingResponse hmacFull myMac sendOk
          { st with pairing_state := .Failed } src2 pkt2 =
        ({ st with pairing_state := .Failed }, []) := by
  constructor
  · unfold handlePairingResponse
    rw [hWait]
    simp [hLen]
  · intro src2 pkt2
    unfold handlePairingResponse
    simp

/-- Witness for C10: a 7-byte PairingResponse payload at a concrete
waiting state. -/
theorem short_pairing_response_fails_session_witness :
    waitingState.pairing_state = .WaitingForResponse ∧
    (7 : Nat) < SIZEOF_PAIRING_RESPONSE ∧
    handlePairingResponse zeroHmac TEST_UNIT_MAC true waitingState
        TEST_UNIT_MAC
        { device_id := 0, msg_type := 21, seq_id := 1, len := 7,
          payload := [1, 2, 3, 4, 5, 6, 7] } =
      ({ waitingState with pairing_state := .Failed }, []) :=
  ⟨by decide, by decide,
   (short_pairing_response_fails_session zeroHmac TEST_UNIT_MAC true
     waitingState TEST_UNIT_MAC _ (by decide) (by decide)).1⟩

/-! ## C3 — HMAC failure on a PairingResponse -/

/-- C3: a `PairingResponse` received while waiting, long enough and of
the expected device type, whose HMAC over our challenge does not verify,
moves the pairing state to `Failed`, leaves the approved-peer table
unchanged, and enqueues no application event. -/
theorem pairing_response_hmac_failure (hmacFull : List Nat → List Nat)
    (myMac : Mac) (sendOk : Bool) (st : ProtoState) (src_mac : Mac)
    (pkt : DecodedPacket)
    (hWait : st.pairing_state = .WaitingForResponse)
    (hLen : SIZEOF_PAIRING_RESPONSE ≤ pkt.len)
    (hType : (parsePairingResponse pkt.payload).device_type = DT_FatigueTester)
    (hHmac : VerifyPairingHmac hmacFull st.my_challenge
        (parsePairingResponse pkt.payload).hmac_response = false) :
    handlePairingResponse hmacFull myMac sendOk st src_mac pkt =
      ({ st with pairing_state := .Failed }, []) := by
  unfold handlePairingResponse
  rw [hWait]
  simp [Nat.not_lt.2 hLen, hType, hHmac]

/-- Witness for C3: a concrete 47-byte response of the right device type
whose HMAC bytes differ from the recomputed ones; the table stays empty
and no event is produced. -/
theorem pairing_response_hmac_failure_witness :
    (let payload :=
      TEST_UNIT_MAC ++ [DT_FatigueTester] ++ List.replicate 8 5 ++
        List.replicate 16 9 ++ List.replicate 16 0
     let pkt : DecodedPacket :=
      { device_id := 0, msg_type := 21, seq_id := 1, len := 47,
        payload := payload }
     VerifyPairingHmac zeroHmac waitingState.my_challenge
        (parsePairingResponse payload).hmac_response = false ∧
     handlePairingResponse zeroHmac TEST_UNIT_MAC true waitingState
        TEST_UNIT_MAC pkt =
      ({ waitingState with pairing_state := .Failed }, [])) :=
  ⟨by decide,
   pairing_response_hmac_failure zeroHmac TEST_UNIT_MAC true waitingState
     TEST_UNIT_MAC _ (by decide) (by decide) (by decide) (by decide)⟩

/-! ## C6 — encode/decode round-trip -/

/-- C6: every packet the encoder produces for a payload of at most 200
bytes passes the receive callback's length filter and every validation
step of the dispatcher — sync, version, length and CRC — and decodes to
exactly the device_id, msg_type, sequence_id and payload bytes that were
encoded. -/
theorem encode_decode_roundtrip (d t s : Nat) (p : List Nat) (raw : List Nat)
    (hd : d < 256) (ht : t < 256) (hs : s < 256)
    (hp : p.length ≤ MAX_PAYLOAD_SIZE)
    (henc : encodePacket d t s p = some raw) :
    recvCbAccepts raw = true ∧
    decodePacket raw = .ok { device_id := d, msg_type := t, seq_id := s,
                             len := p.length, payload := p } := by
  have hple : ¬ (p.length > MAX_PAYLOAD_SIZE) := Nat.not_lt.2 hp
  unfold encodePacket at henc
  rw [if_neg hple] at henc
  obtain rfl := (Option.some.inj henc).symm
  set hdr : List Nat := [SYNC_BYTE, PROTOCOL_VERSION, d, t, s, p.length] with hhdr
  set c := crc16_ccitt (hdr ++ p) with hc
  have hhp : (hdr ++ p).length = 6 + p.length := by
    simp only [hhdr, List.length_append, List.length_cons, List.length_nil]
    try omega
  have hlen : (hdr ++ p ++ [c % 256, c / 256]).length = p.length + 8 := by
    simp only [hhdr, List.length_append, List.length_cons, List.length_nil]
    try omega
  have hget0 : (hdr ++ p ++ [c % 256, c / 256]).getD 0 0 = SYNC_BYTE := by
    rw [List.append_assoc, List.getD_append _ _ _ _ (by simp [hhdr])]
    simp [hhdr, List.getD]
  have hget1 : (hdr ++ p ++ [c % 256, c / 256]).getD 1 0 = PROTOCOL_VERSION := by
    rw [List.append_assoc, List.getD_append _ _ _ _ (by simp [hhdr])]
    simp [hhdr, List.getD]
  have hget2 : (hdr ++ p ++ [c % 256, c / 256]).getD 2 0 = d := by
    rw [List.append_assoc, List.getD_append _ _ _ _ (by simp [hhdr])]
    simp [hhdr, List.getD]
  have hget3 : (hdr ++ p ++ [c % 256, c / 256]).getD 3 0 = t := by
    rw [List.append_assoc, List.getD_append _ _ _ _ (by simp [hhdr])]
    simp [hhdr, List.getD]
  have hget4 : (hdr ++ p ++ [c % 256, c / 256]).getD 4 0 = s := by
    rw [List.append_assoc, List.getD_append _ _ _ _ (by simp [hhdr])]
    simp [hhdr, List.getD]
  have hget5 : (hdr ++ p ++ [c % 256, c / 256]).getD 5 0 = p.length := by
    rw [List.append_assoc, List.getD_append _ _ _ _ (by simp [hhdr])]
    simp [hhdr, List.getD]
  have htake : (hdr ++ p ++ [c % 256, c / 256]).take (6 + p.length) = hdr ++ p :=
    List.take_left' hhp
  have hgetc1 : (hdr ++ p ++ [c % 256, c / 256]).getD (6 + p.length) 0 = c % 256 := by
    rw [List.getD_append_right _ _ _ _ hhp.le, hhp]
    simp [List.getD]
  have hgetc2 : (hdr ++ p ++ [c % 256, c / 256]).getD (6 + p.length + 1) 0 = c / 256 := by
    rw [List.getD_append_right _ _ _ _
      (by omega : (hdr ++ p).length ≤ 6 + p.length + 1), hhp]
    simp [List.getD]
  have hpay : ((hdr ++ p ++ [c % 256, c / 256]).drop 6).take p.length = p := by
    rw [List.append_assoc, List.drop_left' (by simp [hhdr] : hdr.length = 6),
        List.take_left' rfl]
  have hnlt : ¬ ((hdr ++ p ++ [c % 256, c / 256]).length < 6 + p.length + 2) := by
    rw [hlen]; omega
  have hcrc : c % 256 + 256 * (c / 256) = c := Nat.mod_add_div c 256
  constructor
  · have h200 : p.length ≤ 200 := hp
    simp only [recvCbAccepts, hlen, Bool.and_eq_true, decide_eq_true_eq]
    omega
  · unfold decodePacket
    rw [if_neg (by rw [hlen]; omega)]
    simp only [hget0, hget1, hget2, hget3, hget4, hget5, htake, hgetc1, hgetc2,
      hpay, hnlt, hcrc, ← hc]
    simp [hple]

/-- Witness for C6 at a concrete packet. -/
theorem encode_decode_roundtrip_witness :
    (3 : Nat) < 256 ∧ (7 : Nat) < 256 ∧ (5 : Nat) < 256 ∧
    ([1, 2, 3] : List Nat).length ≤ MAX_PAYLOAD_SIZE ∧
    recvCbAccepts ((encodePacket 3 7 5 [1, 2, 3]).getD []) = true ∧
    decodePacket ((encodePacket 3 7 5 [1, 2, 3]).getD []) =
      .ok { device_id := 3, msg_type := 7, seq_id := 5, len := 3,
            payload := [1, 2, 3] } :=
  ⟨by decide, by decide, by decide, by decide,
   (encode_decode_roundtrip 3 7 5 [1, 2, 3] _ (by decide) (by decide)
     (by decide) (by decide) (by decide)).1,
   (encode_decode_roundtrip 3 7 5 [1, 2, 3] _ (by decide) (by decide)
     (by decide) (by decide) (by decide)).2⟩

/-! ## C1 — the security gate blocks unapproved non-pairing traffic -/

/-- C1: a decoded datagram whose message type is none of the four
pairing-handshake types, arriving from a source MAC that
`IsPeerApproved` rejects, produces no application event; the whole
module state — peer store and pairing machine alike — is left
unchanged. -/
theorem gate_blocks_unapproved (hmacFull : List Nat → List Nat) (myMac : Mac)
    (sendOk : Bool) (st : ProtoState) (raw : List Nat) (src_mac : Mac)
    (pkt : DecodedPacket)
    (hdec : decodePacket raw = .ok pkt)
    (h20 : pkt.msg_type ≠ MT_PairingRequest)
    (h21 : pkt.msg_type ≠ MT_PairingResponse)
    (h22 : pkt.msg_type ≠ MT_PairingConfirm)
    (h23 : pkt.msg_type ≠ MT_PairingReject)
    (hun : PeerStore.IsPeerApproved st.peerctx st.security src_mac = false) :
    handlePacket hmacFull myMac sendOk st raw src_mac = (st, [], .unapproved) := by
  unfold handlePacket
  rw [hdec]
  simp [h21, h23, hun]

/-- Witness for C1: a StatusUpdate (type 9) from an unknown MAC at a
fresh state. -/
theorem gate_blocks_unapproved_witness :
    decodePacket ((encodePacket 1 9 2 [0x2A]).getD []) =
      .ok { device_id := 1, msg_type := 9, seq_id := 2, len := 1,
            payload := [0x2A] } ∧
    PeerStore.IsPeerApproved freshState.peerctx freshState.security
      TEST_UNIT_MAC = false ∧
    handlePacket zeroHmac ZERO_MAC true freshState
        ((encodePacket 1 9 2 [0x2A]).getD []) TEST_UNIT_MAC =
      (freshState, [], .unapproved) :=
  ⟨by decide, by decide,
   gate_blocks_unapproved zeroHmac ZERO_MAC true freshState _ TEST_UNIT_MAC
     { device_id := 1, msg_type := 9, seq_id := 2, len := 1, payload := [0x2A] }
     (by decide) (by decide) (by decide) (by decide) (by decide) (by decide)⟩

/-! ## C2 — which message types bypass the gate (corrected) -/

/-- C2 as stated is false: the dispatcher exempts only `PairingResponse`
(21) and `PairingReject` (23).  Here a CRC-valid `PairingRequest` (20)
from an unapproved source, received while a pairing session is waiting,
is dropped by the `IsPeerApproved` gate — it is not routed into the
pairing state machine. -/
theorem pairing_request_not_exempt_cex :
    decodePacket ((encodePacket 0 MT_PairingRequest 1
        (List.replicate SIZEOF_PAIRING_REQUEST 0)).getD []) =
      .ok { device_id := 0, msg_type := MT_PairingRequest, seq_id := 1,
            len := SIZEOF_PAIRING_REQUEST,
            payload := List.replicate SIZEOF_PAIRING_REQUEST 0 } ∧
    PeerStore.IsPeerApproved waitingState.peerctx waitingState.security
      TEST_UNIT_MAC = false ∧
    handlePacket zeroHmac ZERO_MAC true waitingState
        ((encodePacket 0 MT_PairingRequest 1
          (List.replicate SIZEOF_PAIRING_REQUEST 0)).getD [])
        TEST_UNIT_MAC =
      (waitingState, [], .unapproved) := by
  refine ⟨by decide, by decide, by decide⟩

/-- `handlePairingReject` only logs: every branch returns the state
unchanged with no event. -/
theorem handlePairingReject_eq (st : ProtoState) (src_mac : Mac)
    (pkt : DecodedPacket) : handlePairingReject st src_mac pkt = (st, []) := by
  unfold handlePairingReject
  split
  · rfl
  · split
    · rfl
    · rfl

/-- C2 amended: of the four pairing-handshake types only
`PairingResponse` (21) and `PairingReject` (23) bypass the security
gate — their handling is the same expression for approved and
unapproved sources alike — while `PairingRequest` (20) and
`PairingConfirm` (22) pass through the `IsPeerApproved` gate and are
dropped when the source is unapproved. -/
theorem gate_exempts_only_response_and_reject
    (hmacFull : List Nat → List Nat) (myMac : Mac) (sendOk : Bool)
    (st : ProtoState) (raw : List Nat) (src_mac : Mac) (pkt : DecodedPacket)
    (hdec : decodePacket raw = .ok pkt) :
    (pkt.msg_type = MT_PairingResponse →
      handlePacket hmacFull myMac sendOk st raw src_mac =
        ((handlePairingResponse hmacFull myMac sendOk st src_mac pkt).1,
         (handlePairingResponse hmacFull myMac sendOk st src_mac pkt).2,
         .pairingResponse)) ∧
    (pkt.msg_type = MT_PairingReject →
      handlePacket hmacFull myMac sendOk st raw src_mac =
        (st, [], .pairingReject)) ∧
    (pkt.msg_type = MT_PairingRequest ∨ pkt.msg_type = MT_PairingConfirm →
      PeerStore.IsPeerApproved st.peerctx st.security src_mac = false →
      handlePacket hmacFull myMac sendOk st raw src_mac =
        (st, [], .unapproved)) := by
  refine ⟨?_, ?_, ?_⟩
  · intro h
    unfold handlePacket
    rw [hdec]
    simp [h]
  · intro h
    unfold handlePacket
    rw [hdec]
    simp [h, MT_PairingResponse, MT_PairingReject, handlePairingReject_eq]
  · intro h hun
    unfold handlePacket
    rw [hdec]
    rcases h with h | h <;>
      simp [h, MT_PairingRequest, MT_PairingConfirm, MT_PairingResponse,
        MT_PairingReject, hun]

/-- Witness for the amended C2: a PairingResponse from an unapproved MAC
is routed to the pairing handler, while a PairingConfirm from the same
MAC is dropped by the gate. -/
theorem gate_exempts_only_response_and_reject_witness :
    (handlePacket zeroHmac ZERO_MAC true freshState
        ((encodePacket 0 MT_PairingResponse 1 [4]).getD []) TEST_UNIT_MAC =
      ((handlePairingResponse zeroHmac ZERO_MAC true freshState TEST_UNIT_MAC
          { device_id := 0, msg_type := MT_PairingResponse, seq_id := 1,
            len := 1, payload := [4] }).1,
       (handlePairingResponse zeroHmac ZERO_MAC true freshState TEST_UNIT_MAC
          { device_id := 0, msg_type := MT_PairingResponse, seq_id := 1,
            len := 1, payload := [4] }).2,
       .pairingResponse)) ∧
    handlePacket zeroHmac ZERO_MAC true freshState
        ((encodePacket 0 MT_PairingConfirm 1 [4]).getD []) TEST_UNIT_MAC =
      (freshState, [], .unapproved) :=
  ⟨(gate_exempts_only_response_and_reject zeroHmac ZERO_MAC true freshState _
      TEST_UNIT_MAC
      { device_id := 0, msg_type := MT_PairingResponse, seq_id := 1,
        len := 1, payload := [4] }
      (by decide)).1 (by decide),
   (gate_exempts_only_response_and_reject zeroHmac ZERO_MAC true freshState _
      TEST_UNIT_MAC
      { device_id := 0, msg_type := MT_PairingConfirm, seq_id := 1,
        len := 1, payload := [4] }
      (by decide)).2.2 (Or.inr (by decide)) (by decide)⟩

namespace PeerStore

theorem updateFirst_eq_none_iff (p : α → Bool) (f : α → α) (l : List α) :
    updateFirst p f l = none ↔ ∀ x ∈ l, p x = false := by
  induction l with
  | nil => simp [updateFirst]
  | cons x xs ih =>
      by_cases hx : p x
      · simp [updateFirst, hx]
      · have hx' : p x = false := by
          cases hpx : p x
          · rfl
          · exact absurd hpx hx
        simp [updateFirst, hx', Option.map_eq_none', ih]

theorem updateFirst_some_decomp (p : α → Bool) (f : α → α) :
    ∀ (l m : List α), updateFirst p f l = some m →
      ∃ l1 x l2, l = l1 ++ x :: l2 ∧ m = l1 ++ f x :: l2 ∧ p x = true ∧
        ∀ y ∈ l1, p y = false := by
  intro l
  induction l with
  | nil => intro m h; simp [updateFirst] at h
  | cons x xs ih =>
      intro m h
      by_cases hx : p x
      · simp only [updateFirst, if_pos hx] at h
        exact ⟨[], x, xs, by simp, by simp [← Option.some.inj h], hx, by simp⟩
      · simp only [updateFirst, if_neg hx, Option.map_eq_some'] at h
        obtain ⟨m', hm', rfl⟩ := h
        obtain ⟨l1, y, l2, rfl, rfl, hy, hl1⟩ := ih m' hm'
        refine ⟨x :: l1, y, l2, by simp, by simp, hy, ?_⟩
        intro z hz
        rcases List.mem_cons.mp hz with rfl | hz
        · exact Bool.not_eq_true _ ▸ hx
        · exact hl1 z hz

end PeerStore

namespace PeerStore

/-- No two valid slots of the table share a MAC. -/
def MacsDistinct (sec : SecuritySettings) : Prop :=
  sec.approved_peers.Pairwise
    (fun q r => q.valid = true → r.valid = true → q.mac ≠ r.mac)

theorem macsDistinct_empty : MacsDistinct emptySettings := by
  unfold MacsDistinct emptySettings
  decide

theorem macsDistinct_addPeer (sec : SecuritySettings) (mac : Mac) (ty : Nat)
    (name : Option (List Nat)) (h : MacsDistinct sec) :
    MacsDistinct (AddPeer sec mac ty name).1 := by
  unfold AddPeer
  by_cases hz : IsZeroMac mac
  · simpa [hz]
  · rw [if_neg hz]
    cases h1 : updateFirst (fun q => q.valid && MacEquals q.mac mac)
        (updatedEntry ty name) sec.approved_peers with
    | some tbl =>
        obtain ⟨l1, x, l2, hl, hm, hx, hl1⟩ :=
          updateFirst_some_decomp _ _ _ _ h1
        simp only [hm]
        unfold MacsDistinct at h ⊢
        rw [hl] at h
        rw [List.pairwise_append] at h ⊢
        obtain ⟨hP1, hP2, hR⟩ := h
        rw [List.pairwise_cons] at hP2 ⊢
        refine ⟨hP1, ⟨?_, hP2.2⟩, ?_⟩
        · intro b hb hv1 hv2
          exact hP2.1 b hb hv1 hv2
        · intro a ha b hb
          rcases List.mem_cons.mp hb with rfl | hb
          · intro hv1 hv2
            exact hR a ha x (List.mem_cons_self _ _) hv1 hv2
          · exact hR a ha b (List.mem_cons.mpr (Or.inr hb))
    | none =>
        cases h2 : updateFirst (fun q => !q.valid)
            (fun _ => newEntry mac ty name) sec.approved_peers with
        | some tbl =>
            obtain ⟨l1, x, l2, hl, hm, hx, hl1⟩ :=
              updateFirst_some_decomp _ _ _ _ h2
            rw [updateFirst_eq_none_iff] at h1
            have hnone := h1
            simp only [hm]
            unfold MacsDistinct at h ⊢
            rw [hl] at h
            rw [List.pairwise_append] at h ⊢
            obtain ⟨hP1, hP2, hR⟩ := h
            rw [List.pairwise_cons] at hP2 ⊢
            have hmac_ne : ∀ y ∈ sec.approved_peers, y.valid = true →
                y.mac ≠ mac := by
              intro y hy hv heq
              have := hnone y hy
              rw [hv, heq] at this
              simp [MacEquals] at this
            refine ⟨hP1, ⟨?_, hP2.2⟩, ?_⟩
            · intro b hb _ hv2
              have hbmem : b ∈ sec.approved_peers := by
                rw [hl]
                exact List.mem_append.mpr (Or.inr (List.mem_cons.mpr (Or.inr hb)))
              intro heq
              exact hmac_ne b hbmem hv2 heq.symm
            · intro a ha b hb
              rcases List.mem_cons.mp hb with rfl | hb
              · intro hv1 _
                have hamem : a ∈ sec.approved_peers := by
                  rw [hl]
                  exact List.mem_append.mpr (Or.inl ha)
                exact hmac_ne a hamem hv1
              · exact hR a ha b (List.mem_cons.mpr (Or.inr hb))
        | none => simpa

theorem macsDistinct_removePeer (sec : SecuritySettings) (mac : Mac)
    (h : MacsDistinct sec) : MacsDistinct (RemovePeer sec mac).1 := by
  unfold RemovePeer
  cases h1 : updateFirst (fun q => q.valid && MacEquals q.mac mac)
      (fun _ => clearedPeer) sec.approved_peers with
  | some tbl =>
      obtain ⟨l1, x, l2, hl, hm, hx, hl1⟩ :=
        updateFirst_some_decomp _ _ _ _ h1
      simp only [hm]
      unfold MacsDistinct at h ⊢
      rw [hl] at h
      rw [List.pairwise_append] at h ⊢
      obtain ⟨hP1, hP2, hR⟩ := h
      rw [List.pairwise_cons] at hP2 ⊢
      refine ⟨hP1, ⟨?_, hP2.2⟩, ?_⟩
      · intro b hb hv
        simp [clearedPeer] at hv
      · intro a ha b hb
        rcases List.mem_cons.mp hb with rfl | hb
        · intro hv1 hv2
          simp [clearedPeer] at hv2
        · exact hR a ha b (List.mem_cons.mpr (Or.inr hb))
  | none => simpa

theorem macsDistinct_clearAll (sec : SecuritySettings) :
    MacsDistinct (ClearAll sec) := by
  unfold MacsDistinct ClearAll
  simp only [List.pairwise_map]
  induction sec.approved_peers with
  | nil => exact List.Pairwise.nil
  | cons x xs ih =>
      refine List.Pairwise.cons ?_ ih
      intro b _ hv
      simp [clearedPeer] at hv

theorem reachable_macsDistinct {sec : SecuritySettings}
    (h : Reachable sec) : MacsDistinct sec := by
  induction h with
  | init => exact macsDistinct_empty
  | add mac ty name _ ih => exact macsDistinct_addPeer _ mac ty name ih
  | remove mac _ ih => exact macsDistinct_removePeer _ mac ih
  | clear _ _ => exact macsDistinct_clearAll _

end PeerStore

/-- C5 as stated is false for the pre-configured factory MAC: with the
factory peer configured (as espnow::Init does with `TEST_UNIT_MAC_`),
the factory MAC is approved in the reachable initial state, and remains
approved after `RemovePeer` of that very MAC returns. -/
theorem removePeer_preconfigured_cex :
    PeerStore.Reachable emptySettings ∧
    PeerStore.IsPeerApproved
      (PeerStore.initCtx (some TEST_UNIT_MAC) DT_FatigueTester none)
      emptySettings TEST_UNIT_MAC = true ∧
    (PeerStore.RemovePeer emptySettings TEST_UNIT_MAC).1 = emptySettings ∧
    PeerStore.IsPeerApproved
      (PeerStore.initCtx (some TEST_UNIT_MAC) DT_FatigueTester none)
      (PeerStore.RemovePeer emptySettings TEST_UNIT_MAC).1
      TEST_UNIT_MAC = true :=
  ⟨PeerStore.Reachable.init, by decide, by decide, by decide⟩

/-- C5 amended: for every MAC that is not the pre-configured factory
MAC, in every reachable peer-store state in which the MAC is approved,
`RemovePeer` of that MAC leaves it unapproved. -/
theorem removePeer_revokes_approval (ctx : PeerStoreCtx)
    (sec : SecuritySettings) (mac : Mac)
    (hreach : PeerStore.Reachable sec)
    (hnotpre : ctx.has_preconfigured = false ∨
      MacEquals ctx.preconfigured_peer.mac mac = false)
    (happr : PeerStore.IsPeerApproved ctx sec mac = true) :
    PeerStore.IsPeerApproved ctx (PeerStore.RemovePeer sec mac).1 mac = false := by
  have hdist := PeerStore.reachable_macsDistinct hreach
  have hpre : (ctx.has_preconfigured && MacEquals ctx.preconfigured_peer.mac mac) = false := by
    rcases hnotpre with h | h <;> simp [h]
  -- from approval, some valid table slot carries this MAC
  have hz : IsZeroMac mac = false := by
    by_contra hzz
    rw [Bool.not_eq_false] at hzz
    rw [PeerStore.IsPeerApproved, if_pos hzz] at happr
    exact Bool.false_ne_true happr
  have hany : sec.approved_peers.any (fun q => q.valid && MacEquals q.mac mac) = true := by
    rw [PeerStore.IsPeerApproved, if_neg (by simp [hz])] at happr
    rw [if_neg (by simp [hpre])] at happr
    exact happr
  -- hence RemovePeer finds a slot
  unfold PeerStore.RemovePeer
  cases h1 : PeerStore.updateFirst (fun q => q.valid && MacEquals q.mac mac)
      (fun _ => clearedPeer) sec.approved_peers with
  | none =>
      rw [PeerStore.updateFirst_eq_none_iff] at h1
      rw [List.any_eq_true] at hany
      obtain ⟨q, hq, hqp⟩ := hany
      rw [h1 q hq] at hqp
      exact absurd hqp Bool.false_ne_true
  | some tbl =>
      obtain ⟨l1, x, l2, hl, hm, hx, hl1⟩ :=
        PeerStore.updateFirst_some_decomp _ _ _ _ h1
      simp only
      rw [PeerStore.IsPeerApproved, if_neg (by simp [hz]), if_neg (by simp [hpre])]
      rw [hm]
      simp only
      rw [List.any_eq_false]
      intro q hq
      rw [Bool.not_eq_true]
      rcases List.mem_append.mp hq with hq1 | hq2
      · exact hl1 q hq1
      · rcases List.mem_cons.mp hq2 with rfl | hq3
        · simp [clearedPeer]
        · -- q sits behind the removed slot; distinct MACs forbid a second match
          unfold PeerStore.MacsDistinct at hdist
          rw [hl, List.pairwise_append] at hdist
          obtain ⟨_, hP2, _⟩ := hdist
          rw [List.pairwise_cons] at hP2
          have hxv : x.valid = true := (Bool.and_eq_true _ _ |>.mp hx).1
          have hxm : x.mac = mac := by
            have := (Bool.and_eq_true _ _ |>.mp hx).2
            simpa [MacEquals] using this
          cases hqv : q.valid
          · rfl
          · have hne := hP2.1 q hq3 hxv hqv
            rw [hxm] at hne
            cases hqm : MacEquals q.mac mac
            · rfl
            · have : q.mac = mac := by simpa [MacEquals] using hqm
              exact absurd this.symm hne

/-- Witness for the amended C5 at a concrete reachable state. -/
theorem removePeer_revokes_approval_witness :
    PeerStore.Reachable
      (PeerStore.AddPeer emptySettings TEST_UNIT_MAC DT_FatigueTester
        (some [0x41])).1 ∧
    PeerStore.IsPeerApproved { has_preconfigured := false, preconfigured_peer := clearedPeer }
      (PeerStore.AddPeer emptySettings TEST_UNIT_MAC DT_FatigueTester
        (some [0x41])).1 TEST_UNIT_MAC = true ∧
    PeerStore.IsPeerApproved { has_preconfigured := false, preconfigured_peer := clearedPeer }
      (PeerStore.RemovePeer
        (PeerStore.AddPeer emptySettings TEST_UNIT_MAC DT_FatigueTester
          (some [0x41])).1 TEST_UNIT_MAC).1 TEST_UNIT_MAC = false :=
  ⟨PeerStore.Reachable.add _ _ _ PeerStore.Reachable.init,
   by decide,
   removePeer_revokes_approval _ _ _
     (PeerStore.Reachable.add _ _ _ PeerStore.Reachable.init)
     (Or.inl rfl) (by decide)⟩

/-- C4 as stated is false for the broadcast half: `AddPeer` guards only
the zero MAC, so a single `AddPeer` of the broadcast MAC into the empty
(reachable) table succeeds and makes `IsPeerApproved(broadcast)` true. -/
theorem broadcast_mac_approved_cex :
    PeerStore.Reachable
      (PeerStore.AddPeer emptySettings BROADCAST_MAC DT_FatigueTester
        (some [0x41])).1 ∧
    (PeerStore.AddPeer emptySettings BROADCAST_MAC DT_FatigueTester
      (some [0x41])).2 = true ∧
    PeerStore.IsPeerApproved { has_preconfigured := false, preconfigured_peer := clearedPeer }
      (PeerStore.AddPeer emptySettings BROADCAST_MAC DT_FatigueTester
        (some [0x41])).1 BROADCAST_MAC = true :=
  ⟨PeerStore.Reachable.add _ _ _ PeerStore.Reachable.init, by decide, by decide⟩

/-- C4 amended: the all-zero MAC is never approved — `IsPeerApproved`
rejects it in every state and `AddPeer` refuses to store it, both
unconditionally — but the broadcast MAC is not guarded: whenever the
table has a free slot or already holds a valid broadcast entry,
`AddPeer(broadcast)` succeeds and the broadcast MAC becomes approved. -/
theorem zero_mac_never_approved_broadcast_unguarded (ctx : PeerStoreCtx)
    (sec : SecuritySettings) (ty : Nat) (name : Option (List Nat)) :
    PeerStore.IsPeerApproved ctx sec ZERO_MAC = false ∧
    PeerStore.AddPeer sec ZERO_MAC ty name = (sec, false) ∧
    ((sec.approved_peers.any (fun q => !q.valid) = true ∨
      sec.approved_peers.any
        (fun q => q.valid && MacEquals q.mac BROADCAST_MAC) = true) →
      (PeerStore.AddPeer sec BROADCAST_MAC ty name).2 = true ∧
      PeerStore.IsPeerApproved ctx
        (PeerStore.AddPeer sec BROADCAST_MAC ty name).1 BROADCAST_MAC = true) := by
  have hzb : IsZeroMac BROADCAST_MAC = false := by decide
  have happr_of_mem : ∀ (tbl : List ApprovedPeer) (q : ApprovedPeer),
      q ∈ tbl → q.valid = true → q.mac = BROADCAST_MAC →
      PeerStore.IsPeerApproved ctx { approved_peers := tbl } BROADCAST_MAC = true := by
    intro tbl q hq hv hmac
    rw [PeerStore.IsPeerApproved, if_neg (by simp [hzb])]
    cases hpre : (ctx.has_preconfigured &&
        MacEquals ctx.preconfigured_peer.mac BROADCAST_MAC)
    · simp only [Bool.false_eq_true, if_neg (by simp [hpre] : ¬ (ctx.has_preconfigured &&
        MacEquals ctx.preconfigured_peer.mac BROADCAST_MAC) = true)]
      exact List.any_eq_true.mpr ⟨q, hq, by simp [hv, hmac, MacEquals]⟩
    · simp
  refine ⟨?_, ?_, ?_⟩
  · rw [PeerStore.IsPeerApproved, if_pos (by decide : IsZeroMac ZERO_MAC = true)]
  · rw [PeerStore.AddPeer, if_pos (by decide : IsZeroMac ZERO_MAC = true)]
  · intro hroom
    have hboth : (PeerStore.AddPeer sec BROADCAST_MAC ty name).2 = true ∧
        PeerStore.IsPeerApproved ctx
          (PeerStore.AddPeer sec BROADCAST_MAC ty name).1 BROADCAST_MAC = true := by
      unfold PeerStore.AddPeer
      rw [if_neg (by simp [hzb])]
      cases h1 : PeerStore.updateFirst
          (fun q => q.valid && MacEquals q.mac BROADCAST_MAC)
          (PeerStore.updatedEntry ty name) sec.approved_peers with
      | some tbl =>
          obtain ⟨l1, x, l2, hl, hm, hx, hl1⟩ :=
            PeerStore.updateFirst_some_decomp _ _ _ _ h1
          subst hm
          refine ⟨rfl, ?_⟩
          refine happr_of_mem _ (PeerStore.updatedEntry ty name x) ?_ ?_ ?_
          · exact List.mem_append.mpr (Or.inr (List.mem_cons_self _ _))
          · simpa using (Bool.and_eq_true _ _ |>.mp hx).1
          · have := (Bool.and_eq_true _ _ |>.mp hx).2
            simpa [MacEquals] using this
      | none =>
          cases h2 : PeerStore.updateFirst (fun q => !q.valid)
              (fun _ => PeerStore.newEntry BROADCAST_MAC ty name)
              sec.approved_peers with
          | some tbl =>
              obtain ⟨l1, x, l2, hl, hm, hx, hl1⟩ :=
                PeerStore.updateFirst_some_decomp _ _ _ _ h2
              subst hm
              refine ⟨rfl, ?_⟩
              refine happr_of_mem _ (PeerStore.newEntry BROADCAST_MAC ty name)
                ?_ rfl rfl
              exact List.mem_append.mpr (Or.inr (List.mem_cons_self _ _))
          | none =>
              rw [PeerStore.updateFirst_eq_none_iff] at h1 h2
              rcases hroom with hfree | hmatch
              · rw [List.any_eq_true] at hfree
                obtain ⟨q, hq, hqp⟩ := hfree
                rw [h2 q hq] at hqp
                exact absurd hqp Bool.false_ne_true
              · rw [List.any_eq_true] at hmatch
                obtain ⟨q, hq, hqp⟩ := hmatch
                rw [h1 q hq] at hqp
                exact absurd hqp Bool.false_ne_true
    exact ⟨hboth.1, hboth.2⟩

/-- A table at capacity (`MAX_APPROVED_PEERS = 4` valid slots), one of
them already the broadcast MAC: exercises the matching-slot case. -/
def fullBroadcastTable : SecuritySettings :=
  { approved_peers :=
      [{ mac := BROADCAST_MAC, device_type := DT_FatigueTester,
         name := List.replicate 16 0, paired_timestamp := 0, valid := true },
       { mac := [1, 2, 3, 4, 5, 6], device_type := DT_FatigueTester,
         name := List.replicate 16 0, paired_timestamp := 0, valid := true },
       { mac := [2, 2, 3, 4, 5, 6], device_type := DT_FatigueTester,
         name := List.replicate 16 0, paired_timestamp := 0, valid := true },
       { mac := [3, 2, 3, 4, 5, 6], device_type := DT_FatigueTester,
         name := List.replicate 16 0, paired_timestamp := 0, valid := true }] }

/-- Witness for the amended C4, at the empty table (free-slot case) and
at a full table already holding the broadcast MAC (matching-slot
case). -/
theorem zero_mac_never_approved_broadcast_unguarded_witness :
    (emptySettings.approved_peers.any (fun q => !q.valid) = true ∨
     emptySettings.approved_peers.any
       (fun q => q.valid && MacEquals q.mac BROADCAST_MAC) = true) ∧
    PeerStore.IsPeerApproved { has_preconfigured := false, preconfigured_peer := clearedPeer }
      emptySettings ZERO_MAC = false ∧
    PeerStore.AddPeer emptySettings ZERO_MAC DT_FatigueTester (some [0x41]) =
      (emptySettings, false) ∧
    (PeerStore.AddPeer emptySettings BROADCAST_MAC DT_FatigueTester
      (some [0x41])).2 = true ∧
    PeerStore.IsPeerApproved { has_preconfigured := false, preconfigured_peer := clearedPeer }
      (PeerStore.AddPeer emptySettings BROADCAST_MAC DT_FatigueTester
        (some [0x41])).1 BROADCAST_MAC = true ∧
    (fullBroadcastTable.approved_peers.any (fun q => !q.valid) = true ∨
     fullBroadcastTable.approved_peers.any
       (fun q => q.valid && MacEquals q.mac BROADCAST_MAC) = true) ∧
    (PeerStore.AddPeer fullBroadcastTable BROADCAST_MAC DT_FatigueTester
      (some [0x41])).2 = true ∧
    PeerStore.IsPeerApproved { has_preconfigured := false, preconfigured_peer := clearedPeer }
      (PeerStore.AddPeer fullBroadcastTable BROADCAST_MAC DT_FatigueTester
        (some [0x41])).1 BROADCAST_MAC = true := by
  have hempty := zero_mac_never_approved_broadcast_unguarded
    { has_preconfigured := false, preconfigured_peer := clearedPeer }
    emptySettings DT_FatigueTester (some [0x41])
  have hfull := zero_mac_never_approved_broadcast_unguarded
    { has_preconfigured := false, preconfigured_peer := clearedPeer }
    fullBroadcastTable DT_FatigueTester (some [0x41])
  refine ⟨Or.inl (by decide), hempty.1, hempty.2.1,
    (hempty.2.2 (Or.inl (by decide))).1, (hempty.2.2 (Or.inl (by decide))).2,
    Or.inr (by decide),
    (hfull.2.2 (Or.inr (by decide))).1, (hfull.2.2 (Or.inr (by decide))).2⟩
